import Mathlib

/-!
Shallow embedding of the Spades tracker server's round lifecycle and
scoring state machine (server `index.ts`): the room / member / round /
round-entry data model, the scoring engine `computeRoundPoints`, the zod
payload schemas, and the state-mutating route handlers
(`PATCH /api/rounds/:id/call`, `POST /start`, `POST /end`,
`PATCH /report`, `PATCH /verify/:memberId`, `POST /close`) together with
`joinRoomForUser`.  Database rows become Lean structures, Prisma updates
become pure list updates, timestamps become `Nat` arguments, and each
handler becomes a total function returning `Except ApiError` of the new
state: an error result models the handler returning an error response
without writing anything.
-/

/-- Room status enum of the Prisma schema: `LOBBY`, `IN_PROGRESS`, `FINISHED`. -/
inductive RoomStatus
  | LOBBY
  | IN_PROGRESS
  | FINISHED
  deriving DecidableEq

/-- Round `state` axis of the Prisma schema: `IN_PROGRESS` or `CLOSED`. -/
inductive RoundState
  | IN_PROGRESS
  | CLOSED
  deriving DecidableEq

/-- Round `phase` axis of the Prisma schema: `CALLING`, `PLAYING`, `ENDED`. -/
inductive RoundPhase
  | CALLING
  | PLAYING
  | ENDED
  deriving DecidableEq

/-- A `RoundEntry` row: per-(round, member) state.  `lockedAt` models the
nullable lock timestamp, the three nullable integer columns are `Option Int`. -/
structure RoundEntry where
  id : Nat
  memberId : Nat
  calledHands : Int
  blindCall : Bool
  lockedAt : Option Nat
  reportedWinningHands : Option Int
  verifiedWinningHands : Option Int
  verifiedById : Option Nat
  pointsAwarded : Option Int
  deriving DecidableEq

/-- A `Round` row together with its entries. -/
structure Round where
  state : RoundState
  phase : RoundPhase
  startedAt : Option Nat
  endedAt : Option Nat
  closedAt : Option Nat
  entries : List RoundEntry
  deriving DecidableEq

/-- A `RoomMember` row: `userId` is the wrapped user identity and
`totalPoints` the running accumulator (database default 0). -/
structure Member where
  id : Nat
  userId : Nat
  totalPoints : Int
  joinedAt : Nat
  deriving DecidableEq

/-- A `Room` row with its member list (join order) and its rounds.
`leaderId` is a user id, as in the source (`room.leaderId !== req.user.id`). -/
structure Room where
  leaderId : Nat
  status : RoomStatus
  members : List Member
  rounds : List Round
  deriving DecidableEq

/-- `ROOM_MAX_PLAYERS = 4` from the source. -/
def ROOM_MAX_PLAYERS : Nat := 4

/-- `MIN_CALL_HANDS = 2` from the source. -/
def MIN_CALL_HANDS : Int := 2

/-- `MIN_RESULT_HANDS = 0` from the source. -/
def MIN_RESULT_HANDS : Int := 0

/-- `MAX_HANDS = 13` from the source. -/
def MAX_HANDS : Int := 13

/-- `BLIND_MIN_HANDS = 5` from the source. -/
def BLIND_MIN_HANDS : Int := 5

/-- The scoring engine `computeRoundPoints` of the server, verbatim:
a failed call scores `calledHands * -10`; otherwise the base is
`calledHands * 10 + (verifiedHands - calledHands)`, doubled on a blind call. -/
def computeRoundPoints (calledHands verifiedHands : Int) (blindCall : Bool) : Int :=
  if verifiedHands < calledHands then
    calledHands * (-10)
  else
    let basePoints := calledHands * 10 + (verifiedHands - calledHands)
    if blindCall then basePoints * 2 else basePoints

/-- zod `roundCallSchema` acceptance on `calledHands`: an integer in
`[MIN_CALL_HANDS, MAX_HANDS]` (integrality is intrinsic to `Int`). -/
def roundCallSchemaOk (calledHands : Int) : Bool :=
  decide (MIN_CALL_HANDS ≤ calledHands) && decide (calledHands ≤ MAX_HANDS)

/-- zod `reportSchema` acceptance on `winningHands`: an integer in
`[MIN_RESULT_HANDS, MAX_HANDS]`. -/
def reportSchemaOk (winningHands : Int) : Bool :=
  decide (MIN_RESULT_HANDS ≤ winningHands) && decide (winningHands ≤ MAX_HANDS)

/-- zod `verifySchema` acceptance: `verifiedWinningHands` optional, and when
present an integer in `[MIN_RESULT_HANDS, MAX_HANDS]`. -/
def verifySchemaOk : Option Int → Bool
  | none => true
  | some v => decide (MIN_RESULT_HANDS ≤ v) && decide (v ≤ MAX_HANDS)

/-- The typed failures of the embedded handlers.  Each constructor is one
distinct error response of the source; the spec's taxonomy maps onto them as
noted (status / message from the source):
`invalidPayload` = 400 zod schema rejection (ValidationError);
`entryNotFound` / `roundNotFound` = 404 (NotFoundError);
`notLeader` = 403 (AuthorizationError);
`roundClosed` = 400 "Round is already closed" / "Round already closed";
`callingEnded` = 400 "Calling phase has ended";
`blindTooLow` = 400 "Blind call must be at least 5 hands" (ValidationError);
`mustLockFirst` = 400 "Initial estimate must be locked" (SequenceError);
`cannotDecrease` = 400 "Locked estimate cannot be decreased" (InvariantViolation);
`alreadyStarted` = 400 "Round has already started";
`missingLocks` = 400 "All players must lock their calls before starting the
round" (PreconditionError);
`notPlaying` = 400 "Round must be in playing phase before ending";
`notEnded` = 400 ended-phase guard of report / verify / close (PreconditionError);
`notReported` = 400 "Player has not reported winning hands yet" (PreconditionError);
`unverifiedEntries` = 400 "All hands must be verified before closing the
round" (PreconditionError);
`roundInProgress` = 400 "Cannot join while a round is in progress" (ConflictError);
`roomFull` = 400 "Room full (max 4 players)" (CapacityError). -/
inductive ApiError
  | invalidPayload
  | entryNotFound
  | roundNotFound
  | notLeader
  | roundClosed
  | callingEnded
  | blindTooLow
  | mustLockFirst
  | cannotDecrease
  | alreadyStarted
  | missingLocks
  | notPlaying
  | notEnded
  | notReported
  | unverifiedEntries
  | roundInProgress
  | roomFull
  deriving DecidableEq

/-- Decidable equality of handler results, so concrete runs of the
embedded handlers can be checked by `decide`. -/
instance exceptDecEq {ε α : Type} [DecidableEq ε] [DecidableEq α] :
    DecidableEq (Except ε α)
  | .error a, .error b =>
    if h : a = b then isTrue (h ▸ rfl)
    else isFalse (fun hc => h (Except.error.inj hc))
  | .error _, .ok _ => isFalse (fun hc => Except.noConfusion hc)
  | .ok _, .error _ => isFalse (fun hc => Except.noConfusion hc)
  | .ok a, .ok b =>
    if h : a = b then isTrue (h ▸ rfl)
    else isFalse (fun hc => h (Except.ok.inj hc))

/-- Does entry `e` belong to the user: the source's
`findFirst {roundId, member: {userId}}` joins the entry's member row. -/
def entryBelongsTo (room : Room) (userId : Nat) (e : RoundEntry) : Bool :=
  room.members.any (fun m => m.id == e.memberId && m.userId == userId)

/-- `prisma.roundEntry.findFirst({where: {roundId, member: {userId}}})`. -/
def findEntryByUser (room : Room) (rd : Round) (userId : Nat) : Option RoundEntry :=
  rd.entries.find? (entryBelongsTo room userId)

/-- `prisma.roundEntry.update({where: {id}, data})`: rewrite the row with
the matching id. -/
def updateEntry (entries : List RoundEntry) (entryId : Nat)
    (f : RoundEntry → RoundEntry) : List RoundEntry :=
  entries.map (fun e => if e.id == entryId then f e else e)

/-- `PATCH /api/rounds/:roundId/call`: schema validation, entry lookup,
state / phase guards, blind floor, then the locked / unlocked branches,
exactly in the source's order. -/
def lockOrUpdateCall (room : Room) (rd : Round) (userId : Nat)
    (calledHands : Int) (requestedBlindCall : Option Bool) (lock : Bool)
    (now : Nat) : Except ApiError Round :=
  if !(roundCallSchemaOk calledHands) then .error .invalidPayload
  else
    match findEntryByUser room rd userId with
    | none => .error .entryNotFound
    | some entry =>
      if rd.state ≠ RoundState.IN_PROGRESS then .error .roundClosed
      else if rd.phase ≠ RoundPhase.CALLING then .error .callingEnded
      else if requestedBlindCall.getD entry.blindCall &&
          decide (calledHands < BLIND_MIN_HANDS) then .error .blindTooLow
      else
        match entry.lockedAt with
        | none =>
          if !lock then .error .mustLockFirst
          else .ok {rd with entries := (updateEntry rd.entries entry.id
            (fun e => {e with calledHands := calledHands,
                              blindCall := requestedBlindCall.getD entry.blindCall,
                              lockedAt := some now}))}
        | some _ =>
          if calledHands < entry.calledHands then .error .cannotDecrease
          else .ok {rd with entries := (updateEntry rd.entries entry.id
            (fun e => {e with calledHands := calledHands,
                              blindCall := requestedBlindCall.getD entry.blindCall}))}

/-- `POST /api/rounds/:roundId/start`: leader, state, phase and
all-locked guards, then phase := PLAYING with the start timestamp. -/
def startPlay (room : Room) (rd : Round) (userId : Nat) (now : Nat) :
    Except ApiError Round :=
  if room.leaderId ≠ userId then .error .notLeader
  else if rd.state ≠ RoundState.IN_PROGRESS then .error .roundClosed
  else if rd.phase ≠ RoundPhase.CALLING then .error .alreadyStarted
  else if rd.entries.any (fun e => e.lockedAt.isNone) then .error .missingLocks
  else .ok {rd with phase := RoundPhase.PLAYING, startedAt := some now}

/-- `POST /api/rounds/:roundId/end`: leader, state and phase guards, then
phase := ENDED with the end timestamp. -/
def endPlay (room : Room) (rd : Round) (userId : Nat) (now : Nat) :
    Except ApiError Round :=
  if room.leaderId ≠ userId then .error .notLeader
  else if rd.state ≠ RoundState.IN_PROGRESS then .error .roundClosed
  else if rd.phase ≠ RoundPhase.PLAYING then .error .notPlaying
  else .ok {rd with phase := RoundPhase.ENDED, endedAt := some now}

/-- `PATCH /api/rounds/:roundId/report`: schema validation, entry lookup,
state / phase guards, then overwrite `reportedWinningHands`. -/
def reportRound (room : Room) (rd : Round) (userId : Nat) (winningHands : Int) :
    Except ApiError Round :=
  if !(reportSchemaOk winningHands) then .error .invalidPayload
  else
    match findEntryByUser room rd userId with
    | none => .error .entryNotFound
    | some entry =>
      if rd.state ≠ RoundState.IN_PROGRESS then .error .roundClosed
      else if rd.phase ≠ RoundPhase.ENDED then .error .notEnded
      else .ok {rd with entries := (updateEntry rd.entries entry.id
        (fun e => {e with reportedWinningHands := some winningHands}))}

/-- `PATCH /api/rounds/:roundId/verify/:memberId`: schema validation,
leader / state / phase guards, target entry lookup, the reported-value
precondition, then overwrite the verified value (defaulting to the
reported one) and the verifying actor. -/
def verifyRound (room : Room) (rd : Round) (userId : Nat) (memberId : Nat)
    (requested : Option Int) : Except ApiError Round :=
  if !(verifySchemaOk requested) then .error .invalidPayload
  else if room.leaderId ≠ userId then .error .notLeader
  else if rd.state ≠ RoundState.IN_PROGRESS then .error .roundClosed
  else if rd.phase ≠ RoundPhase.ENDED then .error .notEnded
  else
    match rd.entries.find? (fun e => e.memberId == memberId) with
    | none => .error .entryNotFound
    | some entry =>
      match entry.reportedWinningHands with
      | none => .error .notReported
      | some reported =>
        .ok {rd with entries := (updateEntry rd.entries entry.id
          (fun e => {e with verifiedWinningHands := some (requested.getD reported),
                            verifiedById := some userId}))}

/-- The per-entry points of the close transaction, verbatim:
`computeRoundPoints(entry.calledHands, entry.verifiedWinningHands ?? 0,
entry.blindCall)`. -/
def scoreEntry (e : RoundEntry) : Int :=
  computeRoundPoints e.calledHands (e.verifiedWinningHands.getD 0) e.blindCall

/-- `prisma.roomMember.update({where: {id}, data: {totalPoints:
{increment: points}}})`. -/
def creditMember (members : List Member) (memberId : Nat) (points : Int) :
    List Member :=
  members.map (fun m =>
    if m.id == memberId then {m with totalPoints := m.totalPoints + points} else m)

/-- The member-increment loop of the close transaction: one increment per
entry, in entry order. -/
def applyScores (entries : List RoundEntry) (members : List Member) : List Member :=
  entries.foldl (fun ms e => creditMember ms e.memberId (scoreEntry e)) members

/-- `POST /api/rounds/:roundId/close`: leader, state, phase and
all-verified guards, then the transaction: per-entry points persisted,
per-member totals incremented, round CLOSED with the close timestamp,
room status back to LOBBY.  The `Except` result models the transaction's
atomicity: an error leaves every row as it was. -/
def closeRound (room : Room) (rd : Round) (userId : Nat) (now : Nat) :
    Except ApiError (Room × Round) :=
  if room.leaderId ≠ userId then .error .notLeader
  else if rd.state ≠ RoundState.IN_PROGRESS then .error .roundClosed
  else if rd.phase ≠ RoundPhase.ENDED then .error .notEnded
  else if rd.entries.any (fun e => e.verifiedWinningHands.isNone) then
    .error .unverifiedEntries
  else
    .ok ({room with
            status := RoomStatus.LOBBY,
            members := applyScores rd.entries room.members},
         {rd with
            state := RoundState.CLOSED,
            closedAt := some now,
            entries := rd.entries.map (fun e =>
              {e with pointsAwarded := some (scoreEntry e)})})

/-- `joinRoomForUser`: the in-progress-round conflict guard, the
idempotent existing-membership path, the capacity guard, then membership
creation (`newMemberId` models the generated row id, `now` the join
timestamp; `totalPoints` starts at the database default 0). -/
def joinRoomForUser (room : Room) (userId : Nat) (newMemberId : Nat) (now : Nat) :
    Except ApiError Room :=
  if room.rounds.any (fun r => r.state == RoundState.IN_PROGRESS) then
    .error .roundInProgress
  else if room.members.any (fun m => m.userId == userId) then .ok room
  else if ROOM_MAX_PLAYERS ≤ room.members.length then .error .roomFull
  else .ok {room with members := room.members ++
    [{id := newMemberId, userId := userId, totalPoints := 0, joinedAt := now}]}

/-- One round-mutating API operation, with its authenticated actor and
its arguments. -/
inductive Op
  | call (userId : Nat) (calledHands : Int) (blindCall : Option Bool) (lock : Bool)
  | start (userId : Nat)
  | endPlay (userId : Nat)
  | report (userId : Nat) (winningHands : Int)
  | verify (userId : Nat) (memberId : Nat) (verifiedWinningHands : Option Int)
  | close (userId : Nat)

/-- Dispatch of one operation against a room and one of its rounds; the
five entry / phase operations leave the room row untouched. -/
def applyOp (room : Room) (rd : Round) (op : Op) (now : Nat) :
    Except ApiError (Room × Round) :=
  match op with
  | .call u c b lk => (lockOrUpdateCall room rd u c b lk now).map (fun r => (room, r))
  | .start u => (startPlay room rd u now).map (fun r => (room, r))
  | .endPlay u => (endPlay room rd u now).map (fun r => (room, r))
  | .report u w => (reportRound room rd u w).map (fun r => (room, r))
  | .verify u m v => (verifyRound room rd u m v).map (fun r => (room, r))
  | .close u => closeRound room rd u now

/-- Forward order of the phase axis: CALLING = 0, PLAYING = 1, ENDED = 2. -/
def phaseIdx : RoundPhase → Nat
  | .CALLING => 0
  | .PLAYING => 1
  | .ENDED => 2

/-- Sample member: room leader's membership (user 10). -/
def sampleMemberA : Member :=
  {id := 1, userId := 10, totalPoints := 0, joinedAt := 0}

/-- Sample member: a second player (user 20). -/
def sampleMemberB : Member :=
  {id := 2, userId := 20, totalPoints := 5, joinedAt := 1}

/-- Sample ended-phase entry of member 1: called 4, verified 6. -/
def sampleEntryA : RoundEntry :=
  {id := 1, memberId := 1, calledHands := 4, blindCall := false,
   lockedAt := some 1, reportedWinningHands := some 6,
   verifiedWinningHands := some 6, verifiedById := some 10, pointsAwarded := none}

/-- Sample ended-phase entry of member 2: blind call 5, verified 4. -/
def sampleEntryB : RoundEntry :=
  {id := 2, memberId := 2, calledHands := 5, blindCall := true,
   lockedAt := some 2, reportedWinningHands := some 4,
   verifiedWinningHands := some 4, verifiedById := some 10, pointsAwarded := none}

/-- Sample round in state IN_PROGRESS, phase ENDED, fully verified. -/
def sampleEndedRound : Round :=
  {state := RoundState.IN_PROGRESS, phase := RoundPhase.ENDED,
   startedAt := some 3, endedAt := some 4, closedAt := none,
   entries := [sampleEntryA, sampleEntryB]}

/-- Sample room holding `sampleEndedRound`, leader user 10. -/
def sampleRoom : Room :=
  {leaderId := 10, status := RoomStatus.IN_PROGRESS,
   members := [sampleMemberA, sampleMemberB], rounds := [sampleEndedRound]}

/-- Sample calling-phase entry of member 1, locked at 3 hands. -/
def callEntryA : RoundEntry :=
  {id := 1, memberId := 1, calledHands := 3, blindCall := false,
   lockedAt := some 1, reportedWinningHands := none,
   verifiedWinningHands := none, verifiedById := none, pointsAwarded := none}

/-- Sample calling-phase entry of member 2, not yet locked
(database defaults: calledHands 0, blindCall false). -/
def callEntryB : RoundEntry :=
  {id := 2, memberId := 2, calledHands := 0, blindCall := false,
   lockedAt := none, reportedWinningHands := none,
   verifiedWinningHands := none, verifiedById := none, pointsAwarded := none}

/-- Sample round in state IN_PROGRESS, phase CALLING, one lock missing. -/
def sampleCallingRound : Round :=
  {state := RoundState.IN_PROGRESS, phase := RoundPhase.CALLING,
   startedAt := none, endedAt := none, closedAt := none,
   entries := [callEntryA, callEntryB]}

/-- Sample room holding `sampleCallingRound`, leader user 10. -/
def sampleCallingRoom : Room :=
  {leaderId := 10, status := RoomStatus.IN_PROGRESS,
   members := [sampleMemberA, sampleMemberB], rounds := [sampleCallingRound]}

/-- Sample calling-phase round with every entry locked. -/
def sampleLockedRound : Round :=
  {state := RoundState.IN_PROGRESS, phase := RoundPhase.CALLING,
   startedAt := none, endedAt := none, closedAt := none,
   entries := [callEntryA, {callEntryB with calledHands := 2, lockedAt := some 2}]}

/-- Sample room holding `sampleLockedRound`, leader user 10. -/
def sampleLockedRoom : Room :=
  {leaderId := 10, status := RoomStatus.IN_PROGRESS,
   members := [sampleMemberA, sampleMemberB], rounds := [sampleLockedRound]}

/-- Sample lobby room with no round in progress. -/
def sampleLobbyRoom : Room :=
  {leaderId := 10, status := RoomStatus.LOBBY,
   members := [sampleMemberA, sampleMemberB],
   rounds := [{sampleEndedRound with state := RoundState.CLOSED, closedAt := some 9}]}

/-- The room produced by closing `sampleEndedRound` at time 100:
back in the lobby, totals credited with +42 and -50. -/
def closedSampleRoom : Room :=
  {sampleRoom with
     status := RoomStatus.LOBBY,
     members := [{sampleMemberA with totalPoints := 42},
                 {sampleMemberB with totalPoints := -45}]}

/-- The round produced by closing `sampleEndedRound` at time 100. -/
def closedSampleRound : Round :=
  {sampleEndedRound with
     state := RoundState.CLOSED,
     closedAt := some 100,
     entries := [{sampleEntryA with pointsAwarded := some 42},
                 {sampleEntryB with pointsAwarded := some (-50)}]}

/-- The call schema accepts exactly the integers in `[2, 13]`. -/
theorem roundCallSchemaOk_iff (c : Int) :
    roundCallSchemaOk c = true ↔ (MIN_CALL_HANDS ≤ c ∧ c ≤ MAX_HANDS) := by
  simp [roundCallSchemaOk]

/-- The report schema accepts exactly the integers in `[0, 13]`. -/
theorem reportSchemaOk_iff (w : Int) :
    reportSchemaOk w = true ↔ (MIN_RESULT_HANDS ≤ w ∧ w ≤ MAX_HANDS) := by
  simp [reportSchemaOk]

/-- The verify schema accepts a present value exactly when it is in `[0, 13]`. -/
theorem verifySchemaOk_some_iff (v : Int) :
    verifySchemaOk (some v) = true ↔ (MIN_RESULT_HANDS ≤ v ∧ v ≤ MAX_HANDS) := by
  simp [verifySchemaOk]

/-- C1: over the legal domain calledHands ∈ [2,13], verifiedHands ∈ [0,13],
the scoring function returns `calledHands * -10` whenever
`verifiedHands < calledHands`, regardless of the blind flag, and otherwise
the base `calledHands * 10 + (verifiedHands - calledHands)`, doubled exactly
when `blindCall` is true; and the five concrete values of the spec hold. -/
theorem computeRoundPoints_spec :
    (∀ (c v : Int) (b : Bool), 2 ≤ c → c ≤ 13 → 0 ≤ v → v ≤ 13 →
      (v < c → computeRoundPoints c v b = c * (-10)) ∧
      (c ≤ v → computeRoundPoints c v b =
        (if b then (c * 10 + (v - c)) * 2 else c * 10 + (v - c)))) ∧
    computeRoundPoints 4 6 false = 42 ∧
    computeRoundPoints 4 3 false = -40 ∧
    computeRoundPoints 5 5 true = 100 ∧
    computeRoundPoints 5 6 true = 102 ∧
    computeRoundPoints 5 4 true = -50 := by
  refine ⟨?_, by decide, by decide, by decide, by decide, by decide⟩
  intro c v b _ _ _ _
  constructor
  · intro h
    simp [computeRoundPoints, h]
  · intro h
    simp [computeRoundPoints, not_lt.mpr h]

/-- Inversion of a successful call update: the round was open in the
calling phase, and both status axes are unchanged. -/
theorem lockOrUpdateCall_ok_inv {room : Room} {rd : Round} {u : Nat} {c : Int}
    {b : Option Bool} {lk : Bool} {now : Nat} {rd' : Round}
    (h : lockOrUpdateCall room rd u c b lk now = .ok rd') :
    rd.state = RoundState.IN_PROGRESS ∧ rd.phase = RoundPhase.CALLING ∧
    rd'.state = rd.state ∧ rd'.phase = rd.phase := by
  unfold lockOrUpdateCall at h
  split at h
  · exact Except.noConfusion h
  · split at h
    · exact Except.noConfusion h
    · rename_i entry
      split at h
      · exact Except.noConfusion h
      · split at h
        · exact Except.noConfusion h
        · split at h
          · exact Except.noConfusion h
          · rename_i hstate hphase _
            split at h
            · split at h
              · exact Except.noConfusion h
              · cases h
                exact ⟨not_ne_iff.mp hstate, not_ne_iff.mp hphase, rfl, rfl⟩
            · split at h
              · exact Except.noConfusion h
              · cases h
                exact ⟨not_ne_iff.mp hstate, not_ne_iff.mp hphase, rfl, rfl⟩

/-- Inversion of a successful `startPlay`: the actor was the leader, the
round open in the calling phase with every entry locked, and the result is
the same round in phase PLAYING with the start timestamp. -/
theorem startPlay_ok_inv {room : Room} {rd : Round} {u : Nat} {now : Nat}
    {rd' : Round} (h : startPlay room rd u now = .ok rd') :
    room.leaderId = u ∧ rd.state = RoundState.IN_PROGRESS ∧
    rd.phase = RoundPhase.CALLING ∧
    (∀ e ∈ rd.entries, e.lockedAt ≠ none) ∧
    rd' = {rd with phase := RoundPhase.PLAYING, startedAt := some now} := by
  unfold startPlay at h
  split at h
  · exact Except.noConfusion h
  · split at h
    · exact Except.noConfusion h
    · split at h
      · exact Except.noConfusion h
      · split at h
        · exact Except.noConfusion h
        · rename_i hleader hstate hphase hlocks
          cases h
          refine ⟨not_ne_iff.mp hleader, not_ne_iff.mp hstate, not_ne_iff.mp hphase, ?_, rfl⟩
          intro e he hnone
          exact hlocks (List.any_eq_true.mpr ⟨e, he, by simp [hnone]⟩)

/-- Inversion of a successful `endPlay`: leader, open round in phase
PLAYING, and the result is the same round in phase ENDED with the end
timestamp. -/
theorem endPlay_ok_inv {room : Room} {rd : Round} {u : Nat} {now : Nat}
    {rd' : Round} (h : endPlay room rd u now = .ok rd') :
    room.leaderId = u ∧ rd.state = RoundState.IN_PROGRESS ∧
    rd.phase = RoundPhase.PLAYING ∧
    rd' = {rd with phase := RoundPhase.ENDED, endedAt := some now} := by
  unfold endPlay at h
  split at h
  · exact Except.noConfusion h
  · split at h
    · exact Except.noConfusion h
    · split at h
      · exact Except.noConfusion h
      · rename_i hleader hstate hphase
        cases h
        exact ⟨not_ne_iff.mp hleader, not_ne_iff.mp hstate, not_ne_iff.mp hphase, rfl⟩

/-- Inversion of a successful report: the round was open in phase ENDED
and both status axes are unchanged. -/
theorem reportRound_ok_inv {room : Room} {rd : Round} {u : Nat} {w : Int}
    {rd' : Round} (h : reportRound room rd u w = .ok rd') :
    rd.state = RoundState.IN_PROGRESS ∧ rd.phase = RoundPhase.ENDED ∧
    rd'.state = rd.state ∧ rd'.phase = rd.phase := by
  unfold reportRound at h
  split at h
  · exact Except.noConfusion h
  · split at h
    · exact Except.noConfusion h
    · split at h
      · exact Except.noConfusion h
      · split at h
        · exact Except.noConfusion h
        · rename_i hstate hphase
          cases h
          exact ⟨not_ne_iff.mp hstate, not_ne_iff.mp hphase, rfl, rfl⟩

/-- Inversion of a successful verification: the actor was the leader, the
round open in phase ENDED, and both status axes are unchanged. -/
theorem verifyRound_ok_inv {room : Room} {rd : Round} {u m : Nat}
    {v : Option Int} {rd' : Round} (h : verifyRound room rd u m v = .ok rd') :
    room.leaderId = u ∧ rd.state = RoundState.IN_PROGRESS ∧
    rd.phase = RoundPhase.ENDED ∧ rd'.state = rd.state ∧ rd'.phase = rd.phase := by
  unfold verifyRound at h
  split at h
  · exact Except.noConfusion h
  · split at h
    · exact Except.noConfusion h
    · split at h
      · exact Except.noConfusion h
      · split at h
        · exact Except.noConfusion h
        · rename_i hleader hstate hphase
          split at h
          · exact Except.noConfusion h
          · split at h
            · exact Except.noConfusion h
            · cases h
              exact ⟨not_ne_iff.mp hleader, not_ne_iff.mp hstate, not_ne_iff.mp hphase, rfl, rfl⟩

/-- Inversion of a successful close: the actor was the leader, the round
open in phase ENDED with every entry verified, and the results are exactly
the scored, closed round and the re-lobbied, credited room. -/
theorem closeRound_ok_inv {room : Room} {rd : Round} {u : Nat} {now : Nat}
    {room' : Room} {rd' : Round}
    (h : closeRound room rd u now = .ok (room', rd')) :
    room.leaderId = u ∧ rd.state = RoundState.IN_PROGRESS ∧
    rd.phase = RoundPhase.ENDED ∧
    (∀ e ∈ rd.entries, e.verifiedWinningHands ≠ none) ∧
    room' = {room with status := RoomStatus.LOBBY,
                       members := applyScores rd.entries room.members} ∧
    rd' = {rd with state := RoundState.CLOSED, closedAt := some now,
                   entries := (rd.entries.map (fun e =>
                     {e with pointsAwarded := some (scoreEntry e)}))} := by
  unfold closeRound at h
  split at h
  · exact Except.noConfusion h
  · split at h
    · exact Except.noConfusion h
    · split at h
      · exact Except.noConfusion h
      · split at h
        · exact Except.noConfusion h
        · rename_i hleader hstate hphase hunv
          cases h
          refine ⟨not_ne_iff.mp hleader, not_ne_iff.mp hstate, not_ne_iff.mp hphase, ?_, rfl, rfl⟩
          intro e he hnone
          exact hunv (List.any_eq_true.mpr ⟨e, he, by simp [hnone]⟩)

/-- C4: reachable-state invariant of the round state machine.  A
successful operation only ever runs on an open round (hence after
state=CLOSED no operation modifies the round or its entries), the phase
index never decreases, a phase change is exactly `startPlay` out of
CALLING into PLAYING or `endPlay` out of PLAYING into ENDED, and the only
transition into state=CLOSED is `close`, from phase=ENDED. -/
theorem round_lifecycle_invariant (room : Room) (rd : Round) (op : Op)
    (now : Nat) (room' : Room) (rd' : Round)
    (h : applyOp room rd op now = .ok (room', rd')) :
    rd.state = RoundState.IN_PROGRESS ∧
    phaseIdx rd.phase ≤ phaseIdx rd'.phase ∧
    (rd'.phase ≠ rd.phase →
      (rd.phase = RoundPhase.CALLING ∧ rd'.phase = RoundPhase.PLAYING ∧
        ∃ u, op = Op.start u) ∨
      (rd.phase = RoundPhase.PLAYING ∧ rd'.phase = RoundPhase.ENDED ∧
        ∃ u, op = Op.endPlay u)) ∧
    (rd'.state = RoundState.CLOSED →
      rd.phase = RoundPhase.ENDED ∧ ∃ u, op = Op.close u) := by
  cases op with
  | call u c b lk =>
    simp only [applyOp] at h
    cases hc : lockOrUpdateCall room rd u c b lk now with
    | error e => rw [hc] at h; exact Except.noConfusion h
    | ok r =>
      rw [hc] at h
      cases h
      obtain ⟨h1, h2, h3, h4⟩ := lockOrUpdateCall_ok_inv hc
      refine ⟨h1, le_of_eq (by rw [h4]), fun hne => absurd h4 hne, fun hcl => ?_⟩
      rw [h3, h1] at hcl
      exact absurd hcl (by decide)
  | start u =>
    simp only [applyOp] at h
    cases hc : startPlay room rd u now with
    | error e => rw [hc] at h; exact Except.noConfusion h
    | ok r =>
      rw [hc] at h
      cases h
      obtain ⟨h1, h2, h3, h4, h5⟩ := startPlay_ok_inv hc
      refine ⟨h2, ?_, fun _ => Or.inl ⟨h3, by rw [h5], u, rfl⟩, fun hcl => ?_⟩
      · rw [h3, h5]
        simp [phaseIdx]
      · rw [h5] at hcl
        simp at hcl
        rw [h2] at hcl
        exact absurd hcl (by decide)
  | endPlay u =>
    simp only [applyOp] at h
    cases hc : endPlay room rd u now with
    | error e => rw [hc] at h; exact Except.noConfusion h
    | ok r =>
      rw [hc] at h
      cases h
      obtain ⟨h1, h2, h3, h4⟩ := endPlay_ok_inv hc
      refine ⟨h2, ?_, fun _ => Or.inr ⟨h3, by rw [h4], u, rfl⟩, fun hcl => ?_⟩
      · rw [h3, h4]
        simp [phaseIdx]
      · rw [h4] at hcl
        simp at hcl
        rw [h2] at hcl
        exact absurd hcl (by decide)
  | report u w =>
    simp only [applyOp] at h
    cases hc : reportRound room rd u w with
    | error e => rw [hc] at h; exact Except.noConfusion h
    | ok r =>
      rw [hc] at h
      cases h
      obtain ⟨h1, h2, h3, h4⟩ := reportRound_ok_inv hc
      refine ⟨h1, le_of_eq (by rw [h4]), fun hne => absurd h4 hne, fun hcl => ?_⟩
      rw [h3, h1] at hcl
      exact absurd hcl (by decide)
  | verify u m v =>
    simp only [applyOp] at h
    cases hc : verifyRound room rd u m v with
    | error e => rw [hc] at h; exact Except.noConfusion h
    | ok r =>
      rw [hc] at h
      cases h
      obtain ⟨h1, h2, h3, h4, h5⟩ := verifyRound_ok_inv hc
      refine ⟨h2, le_of_eq (by rw [h5]), fun hne => absurd h5 hne, fun hcl => ?_⟩
      rw [h4, h2] at hcl
      exact absurd hcl (by decide)
  | close u =>
    simp only [applyOp] at h
    obtain ⟨h1, h2, h3, h4, h5, h6⟩ := closeRound_ok_inv h
    refine ⟨h2, le_of_eq (by rw [h6]), fun hne => absurd (by rw [h6]) hne, fun _ => ⟨h3, u, rfl⟩⟩

/-- A map commutes past `find?` when it preserves the predicate. -/
theorem find?_map_comm {α : Type} (p : α → Bool) (g : α → α)
    (hg : ∀ e, p (g e) = p e) (l : List α) :
    (l.map g).find? p = (l.find? p).map g := by
  induction l with
  | nil => rfl
  | cons e es ih =>
    by_cases hp : p e = true
    · rw [List.map_cons, List.find?_cons_of_pos _ (by rw [hg]; exact hp),
        List.find?_cons_of_pos _ hp]
      simp
    · have hp' : ¬ p (g e) = true := by rw [hg]; exact hp
      rw [List.map_cons, List.find?_cons_of_neg _ hp', List.find?_cons_of_neg _ hp, ih]

/-- A per-id entry update does not change which entry a user's lookup
finds, beyond applying the update to it. -/
theorem findEntryByUser_updateEntry (room : Room) (rd : Round) (userId : Nat)
    (eid : Nat) (g : RoundEntry → RoundEntry)
    (hg : ∀ e, (g e).memberId = e.memberId) :
    findEntryByUser room {rd with entries := (updateEntry rd.entries eid g)} userId =
      (findEntryByUser room rd userId).map
        (fun e => if e.id == eid then g e else e) := by
  have hp : ∀ e, entryBelongsTo room userId (if e.id == eid then g e else e) =
      entryBelongsTo room userId e := by
    intro e
    by_cases h : (e.id == eid) = true
    · simp only [if_pos h, entryBelongsTo, hg]
    · simp only [if_neg h]
  exact find?_map_comm _ _ hp rd.entries

/-- With pairwise-distinct entry member ids, the per-entry credit loop of
the close transaction is one increment per member holding an entry. -/
theorem applyScores_eq_map (entries : List RoundEntry) (members : List Member)
    (hnodup : (entries.map (fun e => e.memberId)).Nodup) :
    applyScores entries members =
      members.map (fun m =>
        match entries.find? (fun e => e.memberId == m.id) with
        | some e => {m with totalPoints := m.totalPoints + scoreEntry e}
        | none => m) := by
  induction entries generalizing members with
  | nil => simp [applyScores]
  | cons e es ih =>
    rw [List.map_cons, List.nodup_cons] at hnodup
    obtain ⟨hnotin, hnd⟩ := hnodup
    have step : applyScores (e :: es) members =
        applyScores es (creditMember members e.memberId (scoreEntry e)) := rfl
    rw [step, ih _ hnd, creditMember, List.map_map]
    apply List.map_congr_left
    intro m _
    by_cases hm : m.id = e.memberId
    · have hfind_es : es.find? (fun e2 => e2.memberId == m.id) = none := by
        rw [List.find?_eq_none]
        intro x hx
        simp only [beq_iff_eq]
        intro hxm
        exact hnotin (hm ▸ hxm ▸ List.mem_map_of_mem _ hx)
      have hhead : (e.memberId == m.id) = true := by simp [hm]
      rw [hm] at hfind_es
      simp [Function.comp, hm, List.find?_cons_of_pos _ hhead, hfind_es]
    · have hhead : (e.memberId == m.id) = false := by simp [Ne.symm hm]
      simp only [Function.comp, creditMember]
      simp [hm]
      rw [List.find?_cons]
      simp [hhead]

/-- C2: `close` succeeds exactly for the leader on an open round in phase
ENDED with every entry verified; each failure is the matching typed error
(authorization for a non-leader, precondition errors otherwise) and, the
result being an error, writes nothing.  On success, atomically (one
transaction): every entry's points-awarded becomes the scoring engine's
value for it, every member holding an entry has its total incremented
(never overwritten) by that amount, the round becomes CLOSED with the
close timestamp, and the room status returns to LOBBY; the per-entry score
is computed from the entry's actual verified value. -/
theorem close_spec (room : Room) (rd : Round) (userId : Nat) (now : Nat) :
    (room.leaderId ≠ userId → closeRound room rd userId now = .error .notLeader) ∧
    (room.leaderId = userId → rd.state ≠ RoundState.IN_PROGRESS →
      closeRound room rd userId now = .error .roundClosed) ∧
    (room.leaderId = userId → rd.state = RoundState.IN_PROGRESS →
      rd.phase ≠ RoundPhase.ENDED →
      closeRound room rd userId now = .error .notEnded) ∧
    (room.leaderId = userId → rd.state = RoundState.IN_PROGRESS →
      rd.phase = RoundPhase.ENDED →
      (∃ e ∈ rd.entries, e.verifiedWinningHands = none) →
      closeRound room rd userId now = .error .unverifiedEntries) ∧
    (room.leaderId = userId → rd.state = RoundState.IN_PROGRESS →
      rd.phase = RoundPhase.ENDED →
      (∀ e ∈ rd.entries, e.verifiedWinningHands ≠ none) →
      (rd.entries.map (fun e => e.memberId)).Nodup →
      closeRound room rd userId now =
        .ok ({room with
                status := RoomStatus.LOBBY,
                members := (room.members.map (fun m =>
                  match rd.entries.find? (fun e => e.memberId == m.id) with
                  | some e => {m with totalPoints := m.totalPoints + scoreEntry e}
                  | none => m))},
             {rd with
                state := RoundState.CLOSED,
                closedAt := some now,
                entries := (rd.entries.map (fun e =>
                  {e with pointsAwarded := some (scoreEntry e)}))}) ∧
      (∀ e ∈ rd.entries, ∀ v, e.verifiedWinningHands = some v →
        scoreEntry e = computeRoundPoints e.calledHands v e.blindCall)) := by
  refine ⟨?_, ?_, ?_, ?_, ?_⟩
  · intro hl
    simp [closeRound, hl]
  · intro hl hs
    simp [closeRound, hl, hs]
  · intro hl hs hp
    simp [closeRound, hl, hs, hp]
  · rintro hl hs hp ⟨e, he, hnone⟩
    have hany : rd.entries.any (fun e => e.verifiedWinningHands.isNone) = true :=
      List.any_eq_true.mpr ⟨e, he, by simp [hnone]⟩
    simp [closeRound, hl, hs, hp, hany]
  · intro hl hs hp hver hnodup
    have hany : rd.entries.any (fun e => e.verifiedWinningHands.isNone) = false := by
      rw [List.any_eq_false]
      intro e he
      simp [Option.isNone_iff_eq_none]
      exact hver e he
    constructor
    · simp only [closeRound, hl, hs, hp, hany]
      rw [applyScores_eq_map rd.entries room.members hnodup]
      simp
    · intro e _ v hv
      simp [scoreEntry, hv]

/-- Concrete instance of C2: closing the verified sample round succeeds. -/
theorem close_spec_witness :
    ∃ p, closeRound sampleRoom sampleEndedRound 10 100 = .ok p :=
  ⟨_, ((close_spec sampleRoom sampleEndedRound 10 100).2.2.2.2 rfl rfl rfl
    (by decide) (by decide)).1⟩

/-- C10: whenever `close` succeeds, its all-verified precondition makes
the `?? 0` fallback in the scoring loop unreachable: every entry carries
an actual verified value, its awarded points are the scoring engine's
value at that actual value (never at the substitute 0), and the
so-scored entry is what the closed round stores. -/
theorem close_no_zero_fallback (room : Room) (rd : Round) (userId : Nat)
    (now : Nat) (room' : Room) (rd' : Round)
    (h : closeRound room rd userId now = .ok (room', rd')) :
    ∀ e ∈ rd.entries, ∃ v, e.verifiedWinningHands = some v ∧
      scoreEntry e = computeRoundPoints e.calledHands v e.blindCall ∧
      {e with pointsAwarded := some (computeRoundPoints e.calledHands v e.blindCall)}
        ∈ rd'.entries := by
  obtain ⟨-, -, -, hver, -, hrd'⟩ := closeRound_ok_inv h
  intro e he
  cases hv : e.verifiedWinningHands with
  | none => exact absurd hv (hver e he)
  | some v =>
    refine ⟨v, rfl, by simp [scoreEntry, hv], ?_⟩
    rw [hrd']
    have hm : {e with pointsAwarded := some (scoreEntry e)} ∈
        rd.entries.map (fun e => {e with pointsAwarded := some (scoreEntry e)}) :=
      List.mem_map_of_mem _ he
    simpa [scoreEntry, hv] using hm

/-- Concrete instance of C10 at the sample round's first entry. -/
theorem close_no_zero_fallback_witness :
    ∃ v, sampleEntryA.verifiedWinningHands = some v ∧
      scoreEntry sampleEntryA =
        computeRoundPoints sampleEntryA.calledHands v sampleEntryA.blindCall ∧
      {sampleEntryA with pointsAwarded := (some
        (computeRoundPoints sampleEntryA.calledHands v sampleEntryA.blindCall))}
        ∈ closedSampleRound.entries := by
  have H := close_no_zero_fallback sampleRoom sampleEndedRound 10 100
    closedSampleRoom closedSampleRound (by decide) sampleEntryA (by decide)
  exact H

/-- Successful update of an already-locked call: with the schema and
blind floor satisfied and a non-decreasing value, the handler rewrites
called hands and the blind flag of the actor's entry and touches nothing
else (in particular not the lock timestamp). -/
theorem lockOrUpdateCall_locked_ok (room : Room) (rd : Round) (userId : Nat)
    (entry : RoundEntry) (t : Nat) (c : Int) (b : Option Bool) (lk : Bool) (now : Nat)
    (hstate : rd.state = RoundState.IN_PROGRESS)
    (hphase : rd.phase = RoundPhase.CALLING)
    (hfind : findEntryByUser room rd userId = some entry)
    (hlocked : entry.lockedAt = some t)
    (hschema : roundCallSchemaOk c = true)
    (hblind : b.getD entry.blindCall = true → BLIND_MIN_HANDS ≤ c)
    (hmono : entry.calledHands ≤ c) :
    lockOrUpdateCall room rd userId c b lk now =
      .ok {rd with entries := (updateEntry rd.entries entry.id
        (fun e => {e with calledHands := c,
                          blindCall := b.getD entry.blindCall}))} := by
  have hbf : (b.getD entry.blindCall && decide (c < BLIND_MIN_HANDS)) = false := by
    cases hb : b.getD entry.blindCall with
    | false => simp
    | true => simp [not_lt.mpr (hblind hb)]
  simp [lockOrUpdateCall, hschema, hfind, hstate, hphase, hbf, hlocked,
    not_lt.mpr hmono]

/-- Packaged form of the locked-update success: the result keeps the
round open in CALLING and the user's entry stays the found one with the
new called value and blind flag (lock timestamp untouched). -/
theorem lockOrUpdateCall_locked_step (room : Room) (rd : Round) (userId : Nat)
    (entry : RoundEntry) (t : Nat) (c : Int) (b : Option Bool) (lk : Bool) (now : Nat)
    (hstate : rd.state = RoundState.IN_PROGRESS)
    (hphase : rd.phase = RoundPhase.CALLING)
    (hfind : findEntryByUser room rd userId = some entry)
    (hlocked : entry.lockedAt = some t)
    (hschema : roundCallSchemaOk c = true)
    (hblind : b.getD entry.blindCall = true → BLIND_MIN_HANDS ≤ c)
    (hmono : entry.calledHands ≤ c) :
    ∃ rd', lockOrUpdateCall room rd userId c b lk now = .ok rd' ∧
      rd'.state = RoundState.IN_PROGRESS ∧ rd'.phase = RoundPhase.CALLING ∧
      findEntryByUser room rd' userId =
        some {entry with calledHands := c, blindCall := b.getD entry.blindCall} := by
  refine ⟨_, lockOrUpdateCall_locked_ok room rd userId entry t c b lk now
    hstate hphase hfind hlocked hschema hblind hmono, hstate, hphase, ?_⟩
  rw [findEntryByUser_updateEntry room rd userId entry.id
    (fun e => {e with calledHands := c, blindCall := b.getD entry.blindCall})
    (fun e => rfl), hfind]
  simp

/-- C3: for an already-locked entry on an open round in phase CALLING,
with a payload passing the schema and the blind floor, an update with a
called value ≥ the stored one succeeds, rewriting called hands and the
blind flag without re-setting the lock timestamp, while a value < the
stored one fails with the invariant-violation error ("Locked estimate
cannot be decreased", the error writing nothing); hence a sequence of
locked updates c1 ≤ c2 ≤ c3 inside the legal range all succeed. -/
theorem locked_call_monotonic (room : Room) (rd : Round) (userId : Nat)
    (entry : RoundEntry) (t : Nat)
    (hstate : rd.state = RoundState.IN_PROGRESS)
    (hphase : rd.phase = RoundPhase.CALLING)
    (hfind : findEntryByUser room rd userId = some entry)
    (hlocked : entry.lockedAt = some t) :
    (∀ (c : Int) (b : Option Bool) (lk : Bool) (now : Nat),
      roundCallSchemaOk c = true →
      (b.getD entry.blindCall = true → BLIND_MIN_HANDS ≤ c) →
      entry.calledHands ≤ c →
      lockOrUpdateCall room rd userId c b lk now =
        .ok {rd with entries := (updateEntry rd.entries entry.id
          (fun e => {e with calledHands := c,
                            blindCall := b.getD entry.blindCall}))}) ∧
    (∀ (c : Int) (b : Option Bool) (lk : Bool) (now : Nat),
      roundCallSchemaOk c = true →
      (b.getD entry.blindCall = true → BLIND_MIN_HANDS ≤ c) →
      c < entry.calledHands →
      lockOrUpdateCall room rd userId c b lk now = .error .cannotDecrease) ∧
    (∀ (c1 c2 c3 : Int) (l1 l2 l3 : Bool) (n1 n2 n3 : Nat),
      entry.calledHands ≤ c1 → c1 ≤ c2 → c2 ≤ c3 →
      MIN_CALL_HANDS ≤ c1 → c3 ≤ MAX_HANDS →
      ∃ r1 r2 r3,
        lockOrUpdateCall room rd userId c1 (some false) l1 n1 = .ok r1 ∧
        lockOrUpdateCall room r1 userId c2 (some false) l2 n2 = .ok r2 ∧
        lockOrUpdateCall room r2 userId c3 (some false) l3 n3 = .ok r3) := by
  refine ⟨?_, ?_, ?_⟩
  · intro c b lk now hschema hblind hmono
    exact lockOrUpdateCall_locked_ok room rd userId entry t c b lk now
      hstate hphase hfind hlocked hschema hblind hmono
  · intro c b lk now hschema hblind hlt
    have hbf : (b.getD entry.blindCall && decide (c < BLIND_MIN_HANDS)) = false := by
      cases hb : b.getD entry.blindCall with
      | false => simp
      | true => simp [not_lt.mpr (hblind hb)]
    simp [lockOrUpdateCall, hschema, hfind, hstate, hphase, hbf, hlocked, hlt]
  · intro c1 c2 c3 l1 l2 l3 n1 n2 n3 h01 h12 h23 hmin hmax
    have hs1 : roundCallSchemaOk c1 = true :=
      (roundCallSchemaOk_iff c1).mpr ⟨hmin, le_trans h12 (le_trans h23 hmax)⟩
    have hs2 : roundCallSchemaOk c2 = true :=
      (roundCallSchemaOk_iff c2).mpr ⟨le_trans hmin h12, le_trans h23 hmax⟩
    have hs3 : roundCallSchemaOk c3 = true :=
      (roundCallSchemaOk_iff c3).mpr ⟨le_trans (le_trans hmin h12) h23, hmax⟩
    obtain ⟨r1, e1, hst1, hph1, hf1⟩ :=
      lockOrUpdateCall_locked_step room rd userId entry t c1 (some false) l1 n1
        hstate hphase hfind hlocked hs1 (by simp) h01
    obtain ⟨r2, e2, hst2, hph2, hf2⟩ :=
      lockOrUpdateCall_locked_step room r1 userId
        {entry with calledHands := c1, blindCall := (some false : Option Bool).getD entry.blindCall}
        t c2 (some false) l2 n2 hst1 hph1 hf1 hlocked hs2 (by simp) h12
    obtain ⟨r3, e3, hst3, hph3, hf3⟩ :=
      lockOrUpdateCall_locked_step room r2 userId _ t c3 (some false) l3 n3
        hst2 hph2 hf2 hlocked hs3 (by simp) h23
    exact ⟨r1, r2, r3, e1, e2, e3⟩

/-- Concrete instance of C3: raising the locked sample call from 3 to 5. -/
theorem locked_call_monotonic_witness :
    ∃ r, lockOrUpdateCall sampleCallingRoom sampleCallingRound 10 5 none false 7 =
      .ok r :=
  ⟨_, (locked_call_monotonic sampleCallingRoom sampleCallingRound 10 callEntryA 1
    rfl rfl (by decide) rfl).1 5 none false 7 (by decide) (by decide) (by decide)⟩

/-- A call request is rejected as an invalid payload only by the schema
check: the schema must have failed. -/
theorem lockOrUpdateCall_invalid_inv {room : Room} {rd : Round} {u : Nat}
    {c : Int} {b : Option Bool} {lk : Bool} {now : Nat}
    (h : lockOrUpdateCall room rd u c b lk now = .error .invalidPayload) :
    roundCallSchemaOk c = false := by
  unfold lockOrUpdateCall at h
  split at h
  · rename_i hb
    simpa using hb
  · split at h
    · exact absurd (Except.error.inj h) (by simp)
    · split at h
      · exact absurd (Except.error.inj h) (by simp)
      · split at h
        · exact absurd (Except.error.inj h) (by simp)
        · split at h
          · exact absurd (Except.error.inj h) (by simp)
          · split at h
            · split at h
              · exact absurd (Except.error.inj h) (by simp)
              · exact Except.noConfusion h
            · split at h
              · exact absurd (Except.error.inj h) (by simp)
              · exact Except.noConfusion h

/-- A report is rejected as an invalid payload only by the schema check. -/
theorem reportRound_invalid_inv {room : Room} {rd : Round} {u : Nat} {w : Int}
    (h : reportRound room rd u w = .error .invalidPayload) :
    reportSchemaOk w = false := by
  unfold reportRound at h
  split at h
  · rename_i hb
    simpa using hb
  · split at h
    · exact absurd (Except.error.inj h) (by simp)
    · split at h
      · exact absurd (Except.error.inj h) (by simp)
      · split at h
        · exact absurd (Except.error.inj h) (by simp)
        · exact Except.noConfusion h

/-- A verification is rejected as an invalid payload only by the schema
check. -/
theorem verifyRound_invalid_inv {room : Room} {rd : Round} {u m : Nat}
    {v : Option Int} (h : verifyRound room rd u m v = .error .invalidPayload) :
    verifySchemaOk v = false := by
  unfold verifyRound at h
  split at h
  · rename_i hb
    simpa using hb
  · split at h
    · exact absurd (Except.error.inj h) (by simp)
    · split at h
      · exact absurd (Except.error.inj h) (by simp)
      · split at h
        · exact absurd (Except.error.inj h) (by simp)
        · split at h
          · exact absurd (Except.error.inj h) (by simp)
          · split at h
            · exact absurd (Except.error.inj h) (by simp)
            · exact Except.noConfusion h

/-- C7: input validation matches the legal hand-value bounds.  The call
handler rejects exactly the called values outside [2,13] as invalid
payloads, and (in the calling phase, schema passed) rejects any blind
call below 5 with the blind-floor validation error; the report and
verify handlers reject exactly the winning-hands values outside [0,13]
as invalid payloads and never reject an in-range value that way. -/
theorem validation_bounds (room : Room) (rd : Round) (userId memberId : Nat) :
    (∀ (c : Int) (b : Option Bool) (lk : Bool) (now : Nat),
      ¬(MIN_CALL_HANDS ≤ c ∧ c ≤ MAX_HANDS) →
      lockOrUpdateCall room rd userId c b lk now = .error .invalidPayload) ∧
    (∀ (c : Int) (b : Option Bool) (lk : Bool) (now : Nat),
      MIN_CALL_HANDS ≤ c → c ≤ MAX_HANDS →
      lockOrUpdateCall room rd userId c b lk now ≠ .error .invalidPayload) ∧
    (∀ (c : Int) (b : Option Bool) (lk : Bool) (now : Nat) (entry : RoundEntry),
      rd.state = RoundState.IN_PROGRESS → rd.phase = RoundPhase.CALLING →
      findEntryByUser room rd userId = some entry →
      MIN_CALL_HANDS ≤ c → c ≤ MAX_HANDS →
      b.getD entry.blindCall = true → c < BLIND_MIN_HANDS →
      lockOrUpdateCall room rd userId c b lk now = .error .blindTooLow) ∧
    (∀ (w : Int), ¬(MIN_RESULT_HANDS ≤ w ∧ w ≤ MAX_HANDS) →
      reportRound room rd userId w = .error .invalidPayload) ∧
    (∀ (w : Int), MIN_RESULT_HANDS ≤ w → w ≤ MAX_HANDS →
      reportRound room rd userId w ≠ .error .invalidPayload) ∧
    (∀ (v : Int), ¬(MIN_RESULT_HANDS ≤ v ∧ v ≤ MAX_HANDS) →
      verifyRound room rd userId memberId (some v) = .error .invalidPayload) ∧
    (∀ (v : Int), MIN_RESULT_HANDS ≤ v → v ≤ MAX_HANDS →
      verifyRound room rd userId memberId (some v) ≠ .error .invalidPayload) := by
  refine ⟨?_, ?_, ?_, ?_, ?_, ?_, ?_⟩
  · intro c b lk now hc
    have hb : roundCallSchemaOk c = false := by
      cases hb : roundCallSchemaOk c with
      | true => exact absurd ((roundCallSchemaOk_iff c).mp hb) hc
      | false => rfl
    simp [lockOrUpdateCall, hb]
  · intro c b lk now h1 h2 hcontra
    have := lockOrUpdateCall_invalid_inv hcontra
    rw [(roundCallSchemaOk_iff c).mpr ⟨h1, h2⟩] at this
    exact Bool.noConfusion this
  · intro c b lk now entry hstate hphase hfind h1 h2 hb hlt
    have hschema : roundCallSchemaOk c = true := (roundCallSchemaOk_iff c).mpr ⟨h1, h2⟩
    have hbf : (b.getD entry.blindCall && decide (c < BLIND_MIN_HANDS)) = true := by
      simp [hb, hlt]
    simp [lockOrUpdateCall, hschema, hfind, hstate, hphase, hbf]
  · intro w hw
    have hb : reportSchemaOk w = false := by
      cases hb : reportSchemaOk w with
      | true => exact absurd ((reportSchemaOk_iff w).mp hb) hw
      | false => rfl
    simp [reportRound, hb]
  · intro w h1 h2 hcontra
    have := reportRound_invalid_inv hcontra
    rw [(reportSchemaOk_iff w).mpr ⟨h1, h2⟩] at this
    exact Bool.noConfusion this
  · intro v hv
    have hb : verifySchemaOk (some v) = false := by
      cases hb : verifySchemaOk (some v) with
      | true => exact absurd ((verifySchemaOk_some_iff v).mp hb) hv
      | false => rfl
    simp [verifyRound, hb]
  · intro v h1 h2 hcontra
    have := verifyRound_invalid_inv hcontra
    rw [(verifySchemaOk_some_iff v).mpr ⟨h1, h2⟩] at this
    exact Bool.noConfusion this

/-- C5: on an open round in phase CALLING with a nonempty entry set,
`startPlay` fails with the authorization error for any non-leader actor,
fails with the missing-locks precondition error when some entry lacks a
lock timestamp (leaving the round unchanged, the error result writing
nothing), and when every entry is locked it moves the phase to PLAYING
and sets the start timestamp. -/
theorem startPlay_spec (room : Room) (rd : Round) (userId : Nat) (now : Nat)
    (hstate : rd.state = RoundState.IN_PROGRESS)
    (hphase : rd.phase = RoundPhase.CALLING)
    (hne : rd.entries ≠ []) :
    (room.leaderId ≠ userId → startPlay room rd userId now = .error .notLeader) ∧
    (room.leaderId = userId → (∃ e ∈ rd.entries, e.lockedAt = none) →
      startPlay room rd userId now = .error .missingLocks) ∧
    (room.leaderId = userId → (∀ e ∈ rd.entries, e.lockedAt ≠ none) →
      startPlay room rd userId now =
        .ok {rd with phase := RoundPhase.PLAYING, startedAt := some now}) := by
  refine ⟨?_, ?_, ?_⟩
  · intro hl
    simp [startPlay, hl]
  · rintro hl ⟨e, he, hnone⟩
    have hany : rd.entries.any (fun e => e.lockedAt.isNone) = true :=
      List.any_eq_true.mpr ⟨e, he, by simp [hnone]⟩
    simp [startPlay, hl, hstate, hphase, hany]
  · intro hl hlocked
    have hany : rd.entries.any (fun e => e.lockedAt.isNone) = false := by
      rw [List.any_eq_false]
      intro e he
      simp [Option.isNone_iff_eq_none]
      exact hlocked e he
    simp [startPlay, hl, hstate, hphase, hany]

/-- C6: `joinRoomForUser` fails with the conflict error whenever the room
has a round with state IN_PROGRESS; otherwise re-joining as an existing
member is a no-op success returning the room unchanged, and a non-member
joining a room already at 4 members fails with the capacity error. -/
theorem joinRoom_spec (room : Room) (userId newMemberId now : Nat) :
    (room.rounds.any (fun r => r.state == RoundState.IN_PROGRESS) = true →
      joinRoomForUser room userId newMemberId now = .error .roundInProgress) ∧
    (room.rounds.any (fun r => r.state == RoundState.IN_PROGRESS) = false →
      room.members.any (fun m => m.userId == userId) = true →
      joinRoomForUser room userId newMemberId now = .ok room) ∧
    (room.rounds.any (fun r => r.state == RoundState.IN_PROGRESS) = false →
      room.members.any (fun m => m.userId == userId) = false →
      room.members.length = 4 →
      joinRoomForUser room userId newMemberId now = .error .roomFull) := by
  refine ⟨?_, ?_, ?_⟩
  · intro h1
    simp [joinRoomForUser, h1]
  · intro h1 h2
    simp [joinRoomForUser, h1, h2]
  · intro h1 h2 hlen
    simp [joinRoomForUser, h1, h2, hlen, ROOM_MAX_PLAYERS]

/-- C8: on an open round in phase CALLING, for an entry whose lock
timestamp is still null and a payload passing the schema and the blind
floor, a call with `lock = false` fails with the sequence error ("Initial
estimate must be locked", writing nothing), and with `lock = true` it sets
called hands, the blind flag and the lock timestamp in one update. -/
theorem first_call_must_lock (room : Room) (rd : Round) (userId : Nat)
    (c : Int) (b : Option Bool) (now : Nat) (entry : RoundEntry)
    (hstate : rd.state = RoundState.IN_PROGRESS)
    (hphase : rd.phase = RoundPhase.CALLING)
    (hfind : findEntryByUser room rd userId = some entry)
    (hunlocked : entry.lockedAt = none)
    (hschema : roundCallSchemaOk c = true)
    (hblind : b.getD entry.blindCall = true → BLIND_MIN_HANDS ≤ c) :
    lockOrUpdateCall room rd userId c b false now = .error .mustLockFirst ∧
    lockOrUpdateCall room rd userId c b true now =
      .ok {rd with entries := (updateEntry rd.entries entry.id
        (fun e => {e with calledHands := c, blindCall := b.getD entry.blindCall,
                          lockedAt := some now}))} := by
  have hbf : (b.getD entry.blindCall && decide (c < BLIND_MIN_HANDS)) = false := by
    cases hb : b.getD entry.blindCall with
    | false => simp
    | true => simp [not_lt.mpr (hblind hb)]
  constructor
  · simp [lockOrUpdateCall, hschema, hfind, hstate, hphase, hbf, hunlocked]
  · simp [lockOrUpdateCall, hschema, hfind, hstate, hphase, hbf, hunlocked]

/-- C9: verification is not write-once.  On an open round in phase ENDED,
for a target entry with a reported value, the leader's `verify` succeeds
regardless of any previously verified value, overwriting the verified
hands (defaulting to the entry's current reported value when the payload
omits them) and the verifying-actor reference. -/
theorem verify_overwrites (room : Room) (rd : Round) (userId memberId : Nat)
    (requested : Option Int) (entry : RoundEntry) (r : Int)
    (hleader : room.leaderId = userId)
    (hstate : rd.state = RoundState.IN_PROGRESS)
    (hphase : rd.phase = RoundPhase.ENDED)
    (hfind : rd.entries.find? (fun e => e.memberId == memberId) = some entry)
    (hrep : entry.reportedWinningHands = some r)
    (hv : verifySchemaOk requested = true) :
    verifyRound room rd userId memberId requested =
      .ok {rd with entries := (updateEntry rd.entries entry.id
        (fun e => {e with verifiedWinningHands := some (requested.getD r),
                          verifiedById := some userId}))} := by
  simp [verifyRound, hv, hleader, hstate, hphase, hfind, hrep]

/-- Concrete instance of C4: starting the fully-locked sample round is a
successful operation from state IN_PROGRESS. -/
theorem round_lifecycle_invariant_witness :
    sampleLockedRound.state = RoundState.IN_PROGRESS :=
  (round_lifecycle_invariant sampleLockedRoom sampleLockedRound (Op.start 10) 11
    sampleLockedRoom
    {sampleLockedRound with phase := RoundPhase.PLAYING, startedAt := some 11}
    (by decide)).1

/-- Concrete instance of C5: the leader starts the fully-locked sample
round. -/
theorem startPlay_spec_witness :
    ∃ r, startPlay sampleLockedRoom sampleLockedRound 10 11 = .ok r :=
  ⟨_, (startPlay_spec sampleLockedRoom sampleLockedRound 10 11 rfl rfl
    (by decide)).2.2 rfl (by decide)⟩

/-- Concrete instance of C6: an existing member re-joins the lobby room
as a no-op. -/
theorem joinRoom_spec_witness :
    joinRoomForUser sampleLobbyRoom 10 99 5 = .ok sampleLobbyRoom :=
  (joinRoom_spec sampleLobbyRoom 10 99 5).2.1 (by decide) (by decide)

/-- Concrete instance of C8: the unlocked sample entry must lock on its
first call, and locking succeeds. -/
theorem first_call_must_lock_witness :
    lockOrUpdateCall sampleCallingRoom sampleCallingRound 20 4 none false 9 =
      .error .mustLockFirst ∧
    ∃ r, lockOrUpdateCall sampleCallingRoom sampleCallingRound 20 4 none true 9 =
      .ok r := by
  have H := first_call_must_lock sampleCallingRoom sampleCallingRound 20 4 none 9
    callEntryB rfl rfl (by decide) rfl (by decide) (by decide)
  exact ⟨H.1, _, H.2⟩

/-- Concrete instance of C9: the leader re-verifies the already-verified
sample entry with an overriding value. -/
theorem verify_overwrites_witness :
    ∃ r, verifyRound sampleRoom sampleEndedRound 10 1 (some 7) = .ok r :=
  ⟨_, verify_overwrites sampleRoom sampleEndedRound 10 1 (some 7) sampleEntryA 6
    rfl rfl rfl (by decide) rfl (by decide)⟩
